import Mathlib

/-!
Shallow embedding of the magpie-twitter-bot repository (Rust) in Lean 4.

Modules covered:
* `src/oauth2_callback.rs` — the one-shot OAuth2 callback rendezvous server
* `src/bot.rs`             — the paginated feed walker and metadata enricher
* `src/download.rs`        — the single-file downloader

Conventions of the embedding:
* Rust `Option<T>` becomes `Option T`; `Result<T, E>` becomes `Except E T`.
* Code that may `panic!` (via `unwrap` / `expect` / `assert_eq!`) is embedded
  in `RunResult`, which distinguishes a normal value, a typed error, and a
  panic with its message.
* Query strings arrive already split into key/value pairs (what
  `serde_urlencoded` produces from the raw string); field lookup by key
  models serde's struct deserialization for the two callback shapes.
* `time::OffsetDateTime` values are represented by their ISO-8601 rendering
  (the only use the code makes of them is `format(&Iso8601::DEFAULT)`).
* Network calls are abstracted by explicit environments (`BotEnv`, `FeedEnv`,
  `DownloadEnv`) recording what each request would return.
-/

namespace Magpie

/-- Outcome of running a piece of Rust code: a value, a typed error (the
`Err` of the enclosing `Result`), or a panic (from `unwrap` / `expect` /
`assert_eq!`) carrying the panic message. -/
inductive RunResult (ε α : Type) where
  | ok (value : α)
  | err (error : ε)
  | panicked (message : String)
deriving Repr, DecidableEq

/-! ## src/oauth2_callback.rs -/

/-- A parsed query string: the key/value pairs produced by
`serde_urlencoded` from the raw query. `None` at use sites models an absent
query string (`RawQuery` yields `None`). -/
abbrev Query := List (String × String)

/-- Embeds `CodeGrantResponse { code, state }` — the authorization-success shape. -/
structure CodeGrantResponse where
  code : String
  state : String
deriving Repr, DecidableEq

/-- Embeds `oauth2::basic::BasicErrorResponse` — the provider-error shape:
mandatory `error`, optional `error_description` and `error_uri`. -/
structure BasicErrorResponse where
  error : String
  error_description : Option String
  error_uri : Option String
deriving Repr, DecidableEq

/-- Embeds `pub type CodeGrantResult = Result<CodeGrantResponse, BasicErrorResponse>`. -/
abbrev CodeGrantResult := Except BasicErrorResponse CodeGrantResponse

/-- Deserializing the success shape: both `code` and `state` must be
present; unknown keys are ignored (no `deny_unknown_fields`). -/
def deserialize_code_grant (q : Query) : Option CodeGrantResponse :=
  match List.lookup "code" q, List.lookup "state" q with
  | some code, some state => some ⟨code, state⟩
  | _, _ => none

/-- Deserializing the provider-error shape: `error` must be present,
`error_description` and `error_uri` are optional; unknown keys ignored. -/
def deserialize_error_response (q : Query) : Option BasicErrorResponse :=
  (List.lookup "error" q).map fun error =>
    ⟨error, List.lookup "error_description" q, List.lookup "error_uri" q⟩

/-- The `#[serde(untagged)] enum CodeGrantResultCustom` deserializer: try the
`Ok(CodeGrantResponse)` variant first, then the `Err(BasicErrorResponse)`
variant, and fail (`none`) when neither shape matches. The result is
immediately converted to `CodeGrantResult` by the `Into` impl. -/
def deserialize_code_grant_result (q : Query) : Option CodeGrantResult :=
  match deserialize_code_grant q with
  | some response => some (.ok response)
  | none => (deserialize_error_response q).map .error

/-- Embeds `struct Headings { title, subheader }` for the acknowledgment page. -/
structure Headings where
  title : String
  subheader : String
deriving Repr, DecidableEq

/-- Embeds `impl ToHeadings for CodeGrantResponse`. -/
def CodeGrantResponse.to_headings (_ : CodeGrantResponse) : Headings :=
  ⟨"You are now logged in.", "Please close the window."⟩

/-- Embeds `impl ToHeadings for BasicErrorResponse`. -/
def BasicErrorResponse.to_headings (r : BasicErrorResponse) : Headings :=
  let subheader :=
    match r.error_description, r.error_uri with
    | none, none => r.error
    | some description, none => r.error ++ ": " ++ description
    | none, some uri => r.error ++ " (" ++ uri ++ ")"
    | some description, some uri => r.error ++ ": " ++ description ++ " (" ++ uri ++ ")"
  ⟨"Login failed.", subheader⟩

/-- Embeds `impl ToHeadings for Result<T, E>`: dispatch on the variant. -/
def CodeGrantResult.to_headings : CodeGrantResult → Headings
  | .ok response => response.to_headings
  | .error response => response.to_headings

/-- Embeds `INVALID_RESPONSE_HEADINGS` constant. -/
def INVALID_RESPONSE_HEADINGS : Headings :=
  ⟨"Login failed.", "Received invalid OAuth2 response."⟩

/-- The shared server `State`: whether the one-shot shutdown sender is still
available, and the stored callback outcome. -/
structure ServerState where
  shutdown : Bool
  code_grant_result : Option CodeGrantResult
deriving Repr

/-- The `/oauth2/callback` handler. Input: the shared state and the raw
query (`none` when absent). Output: the acknowledgment page, modelled by the
headings interpolated into the static HTML template, plus the state after
the handler ran.

Faithful to the source: a present query is fed to the untagged
deserializer and the result of that is `unwrap`ped — a query matching
neither shape panics the handler. An absent query stores `None` as the
outcome, renders `INVALID_RESPONSE_HEADINGS`, and still triggers shutdown. -/
def oauth2_callback (st : ServerState) (query : Option Query) :
    RunResult Empty Headings × ServerState :=
  match query with
  | some q =>
    match deserialize_code_grant_result q with
    | none => (.panicked "called Result::unwrap on an Err value", st)
    | some code_grant_result =>
      let headings := code_grant_result.to_headings
      (.ok headings, { shutdown := false, code_grant_result := some code_grant_result })
  | none =>
    (.ok INVALID_RESPONSE_HEADINGS, { shutdown := false, code_grant_result := none })

/-- Embeds `catch_callback`, specialised to the single callback request the
one-shot server ever sees (its query string, `none` when absent).

The caller blocks until the handler triggers shutdown and then takes the
stored outcome with `.expect("code_grant_result set")`. When the handler
itself panicked the shutdown signal is never sent and the caller never
returns; we conflate that stuck state with the handler's panic into the
`panicked` outcome. When the handler stored `None` (absent query), the
`expect` panics with its message. -/
def catch_callback (query : Option Query) : RunResult Empty CodeGrantResult :=
  let initial : ServerState := { shutdown := true, code_grant_result := none }
  match oauth2_callback initial query with
  | (.panicked m, _) => .panicked m
  | (.err e, _) => e.elim
  | (.ok _, st) =>
    match st.code_grant_result with
    | some result => .ok result
    | none => .panicked "code_grant_result set"

/-! ## src/bot.rs — data model -/

/-- Embeds `twitter_v2::id::NumericId` (a u64; ids fit in `Nat`). -/
abbrev NumericId := Nat

/-- Embeds `enum Error` of `src/bot.rs`: an API invariant violation with its
description, or a wrapped `twitter_v2::Error` (abstracted to its message). -/
inductive Error where
  | TwitterApiInvariant (description : String)
  | TwitterClient (message : String)
deriving Repr, DecidableEq

/-- Result type of `src/bot.rs`, extended with the panic outcome. -/
abbrev BotResult (α : Type) := RunResult Error α

/-- Embeds `TwitterInvariantExt::ok_or_invariant`: unwrap an `Option` the API
contract guarantees, failing with `Error::TwitterApiInvariant` when absent. -/
def ok_or_invariant {α : Type} (o : Option α) (description : String) : BotResult α :=
  match o with
  | some value => .ok value
  | none => .err (.TwitterApiInvariant description)

/-- Embeds `twitter_v2::data::MediaType` (variants used by the code). -/
inductive MediaType where
  | photo
  | video
  | animated_gif
deriving Repr, DecidableEq

/-- Embeds `url::Url`, abstracted to the pieces `src/bot.rs` consumes: its text and
`Url::path_segments()` (`none` for cannot-be-a-base URLs, otherwise the
list of `/`-separated segments). -/
structure Url where
  text : String
  path_segments : Option (List String)
deriving Repr, DecidableEq

/-- A media object from the response side-table: key, kind, optional url. -/
structure Media where
  media_key : String
  kind : MediaType
  url : Option Url
deriving Repr, DecidableEq

/-- Embeds `tweet.attachments`: optional list of media keys. -/
structure Attachments where
  media_keys : Option (List String)
deriving Repr, DecidableEq

/-- Embeds `twitter_v2::data::Tweet`, restricted to the fields `process_page`
reads. `created_at` holds the ISO-8601 rendering of the timestamp. -/
structure Tweet where
  id : NumericId
  author_id : Option NumericId
  created_at : Option String
  attachments : Option Attachments
deriving Repr, DecidableEq

/-- The `includes` side tables of a response (only `media` is used). -/
structure Includes where
  media : Option (List Media)
deriving Repr, DecidableEq

/-- Embeds `twitter_v2::meta::ResultCountMeta`, restricted to
`PaginationMeta::next_token`. -/
structure ResultCountMeta where
  next_token : Option String
deriving Repr, DecidableEq

/-- One page of the liked-tweets feed (`ApiResponse<_, Vec<Tweet>, ResultCountMeta>`):
optional `data`, optional `includes`, optional `meta`. -/
structure Page where
  data : Option (List Tweet)
  includes : Option Includes
  meta : Option ResultCountMeta
deriving Repr, DecidableEq

/-- Embeds `struct TweetRef { created_at, username, id }` (`created_at` already
rendered in ISO-8601 as `filename` would format it). -/
structure TweetRef where
  created_at : String
  username : String
  id : NumericId
deriving Repr, DecidableEq

/-- Embeds `struct ImageRef { tweet, internal_filename, url }`. -/
structure ImageRef where
  tweet : TweetRef
  internal_filename : String
  url : Url
deriving Repr, DecidableEq

/-- Embeds `ImageRef::filename`: `format!("{} {} {} {}", created_at, username, id,
internal_filename)` — the on-disk composite name. `NumericId` renders in
decimal, i.e. `Nat.repr`. -/
def ImageRef.filename (r : ImageRef) : String :=
  r.tweet.created_at ++ " " ++ r.tweet.username ++ " " ++ Nat.repr r.tweet.id
    ++ " " ++ r.internal_filename

/-- Embeds `UsernameCache`: the `HashMap<NumericId, String>` behind the `RwLock`,
modelled as an association list; insertion conses, lookup takes the first
(i.e. most recent) binding, matching `HashMap` insert/get observably. -/
abbrev UsernameCache := List (NumericId × String)

/-- What one `api.get_user(id) … .send()` request comes back with:
`ok` wraps the response's optional `data` payload (the user's `username`
field), `client_error` is a transport/provider failure
(`twitter_v2::Error`). -/
inductive ApiReply (α : Type) where
  | ok (value : α)
  | client_error (message : String)
deriving Repr, DecidableEq

/-- The network environment `process_page` runs against: the reply each
single-user lookup would produce. -/
structure BotEnv where
  get_user : NumericId → ApiReply (Option String)

/-! ## src/bot.rs — process_page -/

/-- The username-resolution block of `process_page` (bot.rs lines 158-183):
read the cache; on a hit use the cached value (no network request); on a
miss issue one `get_user` lookup, unwrap its data with
`ok_or_invariant "username in response"`, insert into the cache, and re-read
the freshly inserted value (`expect("just inserted author in cache")`).

Returns the resolution outcome, the cache afterwards, and the number of
network lookups issued (0 or 1). -/
def resolve_username (env : BotEnv) (cache : UsernameCache) (author_id : NumericId) :
    BotResult String × UsernameCache × Nat :=
  match List.lookup author_id cache with
  | some username => (.ok username, cache, 0)
  | none =>
    match env.get_user author_id with
    | .client_error message => (.err (.TwitterClient message), cache, 1)
    | .ok none => (.err (.TwitterApiInvariant "username in response"), cache, 1)
    | .ok (some username) =>
      let cache' := (author_id, username) :: cache
      match List.lookup author_id cache' with
      | some fresh => (.ok fresh, cache', 1)
      | none => (.panicked "just inserted author in cache", cache', 1)

/-- Building `includes_media`: `collect()` of `(media_key, media)` pairs
into a `HashMap`. On duplicate keys `HashMap` keeps the last occurrence, so
we look up in the reversed pair list. -/
def media_table (media : List Media) : List (String × Media) :=
  (media.map fun m => (m.media_key, m)).reverse

/-- The inner attachment loop of `process_page` (bot.rs lines 191-213), for
one tweet: walk the media keys in order; a key with no side-table entry is
skipped; a non-`Photo` entry is skipped; a `Photo` entry must have a url
(`"url in media"`), the url must have path segments
(`"media url has valid path segments"`), and a last segment
(`"media url has no path segments"`), which becomes the
`internal_filename` of the pushed `ImageRef`. Any invariant failure aborts
the whole page. -/
def process_tweet_media (includes_media : List (String × Media)) (tweet_ref : TweetRef) :
    List String → BotResult (List ImageRef)
  | [] => .ok []
  | media_key :: rest =>
    match List.lookup media_key includes_media with
    | none => process_tweet_media includes_media tweet_ref rest
    | some media =>
      if media.kind = MediaType.photo then
        match ok_or_invariant media.url "url in media" with
        | .err e => .err e
        | .panicked m => .panicked m
        | .ok url =>
          match ok_or_invariant url.path_segments "media url has valid path segments" with
          | .err e => .err e
          | .panicked m => .panicked m
          | .ok segments =>
            match ok_or_invariant segments.getLast? "media url has no path segments" with
            | .err e => .err e
            | .panicked m => .panicked m
            | .ok filename =>
              match process_tweet_media includes_media tweet_ref rest with
              | .ok refs => .ok (⟨tweet_ref, filename, url⟩ :: refs)
              | .err e => .err e
              | .panicked m => .panicked m
      else process_tweet_media includes_media tweet_ref rest

/-- The per-tweet loop of `process_page` (bot.rs lines 156-214): for each
tweet require `author_id` (`"author id in tweet"`), resolve the username
through the cache, require `created_at` (`"created_at in tweet"`), then if
the tweet has attachments require its `media_keys`
(`"media_keys in attachments"`) and run the attachment loop. Image refs
accumulate across tweets in order; the first failure aborts the page and
discards everything accumulated so far. The cache threads through
sequentially. -/
def process_tweets (env : BotEnv) (includes_media : List (String × Media)) :
    UsernameCache → List Tweet → BotResult (List ImageRef) × UsernameCache
  | cache, [] => (.ok [], cache)
  | cache, tweet :: rest =>
    match ok_or_invariant tweet.author_id "author id in tweet" with
    | .err e => (.err e, cache)
    | .panicked m => (.panicked m, cache)
    | .ok author_id =>
      match resolve_username env cache author_id with
      | (.err e, cache', _) => (.err e, cache')
      | (.panicked m, cache', _) => (.panicked m, cache')
      | (.ok username, cache', _) =>
        match ok_or_invariant tweet.created_at "created_at in tweet" with
        | .err e => (.err e, cache')
        | .panicked m => (.panicked m, cache')
        | .ok created_at =>
          let tweet_ref : TweetRef := ⟨created_at, username, tweet.id⟩
          let tweet_refs : BotResult (List ImageRef) :=
            match tweet.attachments with
            | none => .ok []
            | some attachments =>
              match ok_or_invariant attachments.media_keys "media_keys in attachments" with
              | .err e => .err e
              | .panicked m => .panicked m
              | .ok media_keys => process_tweet_media includes_media tweet_ref media_keys
          match tweet_refs with
          | .err e => (.err e, cache')
          | .panicked m => (.panicked m, cache')
          | .ok refs =>
            match process_tweets env includes_media cache' rest with
            | (.ok rest_refs, cache'') => (.ok (refs ++ rest_refs), cache'')
            | (.err e, cache'') => (.err e, cache'')
            | (.panicked m, cache'') => (.panicked m, cache'')

/-- Embeds `Bot::process_page` (bot.rs lines 135-241). A page without `data` is the
last page: `assert_eq!(page.meta().and_then(|m| m.next_token()), None)` —
a panic when a terminal page still advertises a cursor — then `Ok(vec![])`.
Otherwise `includes` (`"includes in response"`) and `includes.media`
(`"media in includes"`) are required, the media side-table is built, and the
per-tweet loop runs. -/
def process_page (env : BotEnv) (cache : UsernameCache) (page : Page) :
    BotResult (List ImageRef) × UsernameCache :=
  match page.data with
  | none =>
    match page.meta.bind ResultCountMeta.next_token with
    | none => (.ok [], cache)
    | some _ => (.panicked "assertion failed: next_token expected to be None on terminal page", cache)
  | some liked_tweets =>
    match ok_or_invariant page.includes "includes in response" with
    | .err e => (.err e, cache)
    | .panicked m => (.panicked m, cache)
    | .ok includes =>
      match ok_or_invariant includes.media "media in includes" with
      | .err e => (.err e, cache)
      | .panicked m => (.panicked m, cache)
      | .ok media =>
        process_tweets env (media_table media) cache liked_tweets

/-- Specification-side description (from the spec's words, for comparison
with `process_tweet_media`): what a single attached media key should yield —
an `ImageRef` exactly when the key resolves in the side-table to a `Photo`
whose url is present and has a last path segment, which becomes the
internal filename. -/
def photo_ref_spec (includes_media : List (String × Media)) (tweet_ref : TweetRef)
    (media_key : String) : Option ImageRef :=
  match List.lookup media_key includes_media with
  | none => none
  | some media =>
    if media.kind = MediaType.photo then
      match media.url with
      | none => none
      | some url =>
        match url.path_segments.bind List.getLast? with
        | none => none
        | some filename => some ⟨tweet_ref, filename, url⟩
    else none

/-- A tweet that is missing one of the fields the request shape guarantees:
author id, created-at, the media-keys list of present attachments, or — for
an attached key that resolves in the side-table to a `Photo` — the media
url or its last path segment. -/
def tweet_missing_field (includes_media : List (String × Media)) (t : Tweet) : Prop :=
  t.author_id = none ∨ t.created_at = none ∨
  (∃ attachments, t.attachments = some attachments ∧
    (attachments.media_keys = none ∨
      (∃ keys, attachments.media_keys = some keys ∧
        ∃ key ∈ keys, ∃ media, List.lookup key includes_media = some media ∧
          media.kind = MediaType.photo ∧
          (media.url = none ∨
            ∃ url, media.url = some url ∧ url.path_segments.bind List.getLast? = none))))

/-! ## src/bot.rs — fetch_liked_tweets -/

/-- The network environment of the feed walk: what
`fetch_liked_tweets_first` returns, and what `Page::next_page()` (the
cursor-following request of `PaginableApiResponse`) returns for a given
page — `some` a next page, `none` when the page carries no next cursor. -/
structure FeedEnv where
  first : Except Error Page
  next : Page → Except Error (Option Page)

/-- The `enum State` of `fetch_liked_tweets` (source spelling kept). -/
inductive FeedState where
  | unintialised
  | errored
  | page (current : Page)

/-- One step of the `unfold` closure in `fetch_liked_tweets`: from the
current state, produce the next emitted item and successor state, or `none`
to end the stream. Uninitialised: emit the first fetch's outcome. A current
page: ask `next_page`; `Ok(None)` ends the stream (transposed away),
`Ok(Some p)` emits the page, `Err` emits the error and moves to `errored`.
`errored` ends the stream immediately. -/
def feed_step (env : FeedEnv) : FeedState → Option (Except Error Page × FeedState)
  | .unintialised =>
    match env.first with
    | .ok p => some (.ok p, .page p)
    | .error e => some (.error e, .errored)
  | .page current =>
    match env.next current with
    | .ok (some p) => some (.ok p, .page p)
    | .ok none => none
    | .error e => some (.error e, .errored)
  | .errored => none

/-- Embeds `Bot::fetch_liked_tweets` (bot.rs lines 109-132): the stream of page
results, as the list of items the unfold emits. `fuel` bounds how many
items we observe (the stream itself is lazy and unbounded); every claim we
prove holds for arbitrary fuel. -/
def fetch_liked_tweets (env : FeedEnv) : Nat → FeedState → List (Except Error Page)
  | 0, _ => []
  | fuel + 1, state =>
    match feed_step env state with
    | none => []
    | some (item, next_state) => item :: fetch_liked_tweets env fuel next_state

/-! ## src/download.rs -/

/-- Embeds `enum Error` of `src/download.rs` (io/reqwest payloads abstracted to
their messages). -/
inductive DownloadError where
  | File (message : String)
  | Remote (message : String)
deriving Repr, DecidableEq

/-- State of the destination path on disk. `File::create` truncates an
existing file to `empty`; a partially failed write is modelled as `empty`
too (only the branches the claims touch constrain this). -/
inductive FsFile where
  | absent
  | empty
  | content (bytes : List Nat)
deriving Repr, DecidableEq

/-- Environment of one `download::file` call: the outcome of
`File::create(path)`, of the network fetch (`send` + `bytes`, yielding the
body), and of `write_all`. -/
structure DownloadEnv where
  create : Except String Unit
  fetch : Except String (List Nat)
  write : Except String Unit

namespace Download

/-- Embeds `download::file` (download.rs lines 13-25), run against `env` with the
destination path initially in state `initial`. Returns the call's result,
whether a network request was issued, and the final state of the path.
The file is created (truncating any existing file) before the request is
sent; a create failure is `Error::File` and issues no request; a fetch
failure is `Error::Remote` and leaves the created empty file behind. -/
def file (env : DownloadEnv) (initial : FsFile) :
    Except DownloadError Unit × Bool × FsFile :=
  match env.create with
  | .error e => (.error (.File e), false, initial)
  | .ok _ =>
    match env.fetch with
    | .error e => (.error (.Remote e), true, .empty)
    | .ok bytes =>
      match env.write with
      | .error e => (.error (.File e), true, .empty)
      | .ok _ => (.ok (), true, .content bytes)

end Download

/-! ## Sample data for concrete evaluations -/

/-- A first feed page carrying a next cursor. -/
def sample_page1 : Page := ⟨none, none, some ⟨some "c1"⟩⟩

/-- A terminal feed page with no next cursor. -/
def sample_page2 : Page := ⟨none, none, none⟩

/-- A two-page feed: the first fetch yields `sample_page1`, whose
`next_page` yields `sample_page2`, which has no next page. -/
def sample_feed_env : FeedEnv :=
  ⟨.ok sample_page1,
   fun p => if p = sample_page1 then .ok (some sample_page2) else .ok none⟩

/-- A feed whose very first fetch fails with a client error. -/
def sample_feed_env_err : FeedEnv :=
  ⟨.error (.TwitterClient "boom"), fun _ => .ok none⟩

/-! ## Step lemmas for the attachment loop -/

theorem process_tweet_media_cons_none (includes_media : List (String × Media))
    (tweet_ref : TweetRef) (key : String) (rest : List String)
    (h : List.lookup key includes_media = none) :
    process_tweet_media includes_media tweet_ref (key :: rest)
      = process_tweet_media includes_media tweet_ref rest := by
  simp [process_tweet_media, h]

theorem process_tweet_media_cons_not_photo (includes_media : List (String × Media))
    (tweet_ref : TweetRef) (key : String) (rest : List String) (media : Media)
    (h : List.lookup key includes_media = some media) (hk : media.kind ≠ MediaType.photo) :
    process_tweet_media includes_media tweet_ref (key :: rest)
      = process_tweet_media includes_media tweet_ref rest := by
  simp [process_tweet_media, h, hk]

theorem process_tweet_media_cons_photo (includes_media : List (String × Media))
    (tweet_ref : TweetRef) (key : String) (rest : List String) (media : Media)
    (url : Url) (segments : List String) (filename : String)
    (h : List.lookup key includes_media = some media) (hk : media.kind = MediaType.photo)
    (hu : media.url = some url) (hps : url.path_segments = some segments)
    (hgl : segments.getLast? = some filename) :
    process_tweet_media includes_media tweet_ref (key :: rest)
      = match process_tweet_media includes_media tweet_ref rest with
        | .ok refs => .ok (⟨tweet_ref, filename, url⟩ :: refs)
        | .err e => .err e
        | .panicked m => .panicked m := by
  simp [process_tweet_media, h, hk, hu, hps, hgl, ok_or_invariant]

theorem process_tweet_media_cons_photo_err (includes_media : List (String × Media))
    (tweet_ref : TweetRef) (key : String) (rest : List String) (media : Media)
    (h : List.lookup key includes_media = some media) (hk : media.kind = MediaType.photo)
    (hbad : media.url = none ∨ ∃ url, media.url = some url ∧
      url.path_segments.bind List.getLast? = none) :
    ∃ d, process_tweet_media includes_media tweet_ref (key :: rest)
      = .err (.TwitterApiInvariant d) := by
  rcases hbad with hu | ⟨url, hu, hseg⟩
  · exact ⟨"url in media", by simp [process_tweet_media, h, hk, hu, ok_or_invariant]⟩
  · rcases hps : url.path_segments with _ | segments
    · exact ⟨"media url has valid path segments",
        by simp [process_tweet_media, h, hk, hu, hps, ok_or_invariant]⟩
    · have hgl : segments.getLast? = none := by simpa [hps] using hseg
      exact ⟨"media url has no path segments",
        by simp [process_tweet_media, h, hk, hu, hps, hgl, ok_or_invariant]⟩

/-- A bad photo key anywhere in the list makes the attachment loop fail
with an invariant error. -/
theorem process_tweet_media_bad_err (includes_media : List (String × Media))
    (tweet_ref : TweetRef) :
    ∀ keys : List String,
      (∃ key ∈ keys, ∃ media, List.lookup key includes_media = some media ∧
        media.kind = MediaType.photo ∧
        (media.url = none ∨ ∃ url, media.url = some url ∧
          url.path_segments.bind List.getLast? = none)) →
      ∃ d, process_tweet_media includes_media tweet_ref keys
        = .err (.TwitterApiInvariant d) := by
  intro keys
  induction keys with
  | nil =>
    rintro ⟨key, hmem, -⟩
    simp at hmem
  | cons key rest ih =>
    rintro ⟨bad, hmem, media, hlook, hphoto, hbad⟩
    rcases List.mem_cons.mp hmem with rfl | hmem
    · exact process_tweet_media_cons_photo_err includes_media tweet_ref bad rest media
        hlook hphoto hbad
    · obtain ⟨d, hd⟩ := ih ⟨bad, hmem, media, hlook, hphoto, hbad⟩
      rcases hl : List.lookup key includes_media with _ | m
      · exact ⟨d, by rw [process_tweet_media_cons_none _ _ _ _ hl]; exact hd⟩
      · by_cases hk : m.kind = MediaType.photo
        · rcases hu : m.url with _ | url
          · exact process_tweet_media_cons_photo_err _ _ _ _ _ hl hk (.inl hu)
          · rcases hps : url.path_segments with _ | segments
            · exact process_tweet_media_cons_photo_err _ _ _ _ _ hl hk
                (.inr ⟨url, hu, by simp [hps]⟩)
            · rcases hgl : segments.getLast? with _ | filename
              · exact process_tweet_media_cons_photo_err _ _ _ _ _ hl hk
                  (.inr ⟨url, hu, by simp [hps, hgl]⟩)
              · exact ⟨d, by rw [process_tweet_media_cons_photo includes_media tweet_ref key
                  rest m url segments filename hl hk hu hps hgl, hd]⟩
        · exact ⟨d, by rw [process_tweet_media_cons_not_photo _ _ _ _ _ hl hk]; exact hd⟩

/-- The attachment loop only ever returns `Ok` or an invariant error. -/
theorem process_tweet_media_ok_or_invariant (includes_media : List (String × Media))
    (tweet_ref : TweetRef) :
    ∀ keys : List String,
      (∃ refs, process_tweet_media includes_media tweet_ref keys = .ok refs) ∨
      (∃ d, process_tweet_media includes_media tweet_ref keys
        = .err (.TwitterApiInvariant d)) := by
  intro keys
  induction keys with
  | nil => exact .inl ⟨[], rfl⟩
  | cons key rest ih =>
    rcases hl : List.lookup key includes_media with _ | m
    · rw [process_tweet_media_cons_none _ _ _ _ hl]; exact ih
    · by_cases hk : m.kind = MediaType.photo
      · rcases hu : m.url with _ | url
        · exact .inr (process_tweet_media_cons_photo_err _ _ _ _ _ hl hk (.inl hu))
        · rcases hps : url.path_segments with _ | segments
          · exact .inr (process_tweet_media_cons_photo_err _ _ _ _ _ hl hk
              (.inr ⟨url, hu, by simp [hps]⟩))
          · rcases hgl : segments.getLast? with _ | filename
            · exact .inr (process_tweet_media_cons_photo_err _ _ _ _ _ hl hk
                (.inr ⟨url, hu, by simp [hps, hgl]⟩))
            · rw [process_tweet_media_cons_photo includes_media tweet_ref key rest m url
                segments filename hl hk hu hps hgl]
              rcases ih with ⟨refs, hok⟩ | ⟨d, herr⟩
              · exact .inl ⟨_, by rw [hok]⟩
              · exact .inr ⟨d, by rw [herr]⟩
      · rw [process_tweet_media_cons_not_photo _ _ _ _ _ hl hk]; exact ih

/-- When every user lookup succeeds with data, username resolution always
succeeds. -/
theorem resolve_username_ok (env : BotEnv)
    (henv : ∀ id, ∃ u, env.get_user id = .ok (some u))
    (cache : UsernameCache) (author_id : NumericId) :
    ∃ u cache' n, resolve_username env cache author_id = (.ok u, cache', n) := by
  rcases hl : List.lookup author_id cache with _ | u
  · obtain ⟨u, hu⟩ := henv author_id
    exact ⟨u, (author_id, u) :: cache, 1, by simp [resolve_username, hl, hu, List.lookup]⟩
  · exact ⟨u, cache, 0, by simp [resolve_username, hl]⟩

/-- When every user lookup succeeds with data, a tweet missing a guaranteed
field anywhere in the page's data makes the per-tweet loop fail with an
invariant error. -/
theorem process_tweets_missing_err (env : BotEnv)
    (henv : ∀ id, ∃ u, env.get_user id = .ok (some u))
    (includes_media : List (String × Media)) :
    ∀ (cache : UsernameCache) (tweets : List Tweet),
      (∃ t ∈ tweets, tweet_missing_field includes_media t) →
      ∃ d, (process_tweets env includes_media cache tweets).1
        = .err (.TwitterApiInvariant d) := by
  intro cache tweets
  induction tweets generalizing cache with
  | nil =>
    rintro ⟨t, hmem, -⟩
    simp at hmem
  | cons t rest ih =>
    rintro ⟨bad, hmem, hbad⟩
    rcases hauth : t.author_id with _ | author_id
    · exact ⟨"author id in tweet", by simp [process_tweets, hauth, ok_or_invariant]⟩
    · obtain ⟨u, cache', n, hres⟩ := resolve_username_ok env henv cache author_id
      rcases hcr : t.created_at with _ | created_at
      · exact ⟨"created_at in tweet",
          by simp [process_tweets, hauth, hcr, hres, ok_or_invariant]⟩
      · have hbad_loc : bad = t ∨ bad ∈ rest := List.mem_cons.mp hmem
        rcases hatt : t.attachments with _ | attachments
        · -- head tweet has all fields and no attachments: the bad tweet is in the tail
          have hbad_rest : bad ∈ rest := by
            rcases hbad_loc with rfl | h
            · exact absurd hbad (by simp [tweet_missing_field, hauth, hcr, hatt])
            · exact h
          obtain ⟨d, hd⟩ := ih cache' ⟨bad, hbad_rest, hbad⟩
          rcases hrec : process_tweets env includes_media cache' rest with ⟨fst, snd⟩
          rw [hrec] at hd
          cases fst with
          | ok r => exact absurd hd (by simp)
          | panicked m => exact absurd hd (by simp)
          | err e =>
            have he : e = .TwitterApiInvariant d := by simpa using hd
            subst he
            exact ⟨d, by simp [process_tweets, hauth, hcr, hatt, hres, ok_or_invariant, hrec]⟩
        · rcases hmk : attachments.media_keys with _ | keys
          · exact ⟨"media_keys in attachments",
              by simp [process_tweets, hauth, hcr, hatt, hmk, hres, ok_or_invariant]⟩
          · rcases process_tweet_media_ok_or_invariant includes_media
              ⟨created_at, u, t.id⟩ keys with ⟨refs, hok⟩ | ⟨d, herr⟩
            · -- head tweet's attachment loop succeeds: the bad tweet is in the tail
              have hbad_rest : bad ∈ rest := by
                rcases hbad_loc with rfl | h
                · exfalso
                  rcases hbad with hb | hb | ⟨a, ha, hb⟩
                  · exact absurd hb (by simp [hauth])
                  · exact absurd hb (by simp [hcr])
                  · rw [hatt] at ha
                    injection ha with ha
                    subst ha
                    rcases hb with hb | ⟨keys', hk', hb⟩
                    · exact absurd hb (by simp [hmk])
                    · rw [hmk] at hk'
                      injection hk' with hk'
                      subst hk'
                      obtain ⟨d, hd⟩ := process_tweet_media_bad_err includes_media
                        ⟨created_at, u, bad.id⟩ keys hb
                      rw [hok] at hd
                      exact absurd hd (by simp)
                · exact h
              obtain ⟨d, hd⟩ := ih cache' ⟨bad, hbad_rest, hbad⟩
              rcases hrec : process_tweets env includes_media cache' rest with ⟨fst, snd⟩
              rw [hrec] at hd
              cases fst with
              | ok r => exact absurd hd (by simp)
              | panicked m => exact absurd hd (by simp)
              | err e =>
                have he : e = .TwitterApiInvariant d := by simpa using hd
                subst he
                exact ⟨d, by simp [process_tweets, hauth, hcr, hatt, hmk, hres, hok,
                  ok_or_invariant, hrec]⟩
            · exact ⟨d, by simp [process_tweets, hauth, hcr, hatt, hmk, hres, herr,
                ok_or_invariant]⟩


/-- Claim C1 is wrong about the code (code bug): a request to
`/oauth2/callback` whose query string is absent makes the waiting
`catch_callback` caller panic at `.expect("code_grant_result set")` (the
handler stored `None`), and a query string matching neither the
authorization-success shape nor the provider-error shape (empty, or e.g.
`foo=bar`) makes the handler itself panic at the `unwrap` of the untagged
parse. No `Malformed` outcome exists anywhere in the code. -/
theorem c1_malformed_query_panics :
    catch_callback none = .panicked "code_grant_result set" ∧
    catch_callback (some []) = .panicked "called Result::unwrap on an Err value" ∧
    (oauth2_callback { shutdown := true, code_grant_result := none }
        (some [("foo", "bar")])).1 = .panicked "called Result::unwrap on an Err value" :=
  ⟨rfl, rfl, rfl⟩

/-- Claim C4: the untagged decode attempts the authorization-success shape
first (whenever the success shape parses, the result is its `Ok`), and the
query `error=access_denied&state=abc` decodes to the provider-error outcome
with error code `access_denied`, no description and no uri, whose
acknowledgment page is headed "Login failed." — failure, not success. -/
theorem c4_decode_precedence_and_provider_error :
    (∀ (q : Query) (r : CodeGrantResponse), deserialize_code_grant q = some r →
        deserialize_code_grant_result q = some (.ok r)) ∧
    deserialize_code_grant_result [("error", "access_denied"), ("state", "abc")]
      = some (.error ⟨"access_denied", none, none⟩) ∧
    (oauth2_callback { shutdown := true, code_grant_result := none }
        (some [("error", "access_denied"), ("state", "abc")])).1
      = .ok ⟨"Login failed.", "access_denied"⟩ := by
  refine ⟨?_, rfl, rfl⟩
  intro q r h
  simp [deserialize_code_grant_result, h]

/-- Witness for C4: the precedence conjunct applied to a query that parses
as the success shape. -/
theorem c4_decode_precedence_witness :
    deserialize_code_grant_result [("code", "c"), ("state", "s")]
      = some (.ok ⟨"c", "s"⟩) :=
  c4_decode_precedence_and_provider_error.1 [("code", "c"), ("state", "s")] ⟨"c", "s"⟩ rfl

/-- Claim C2: a page whose `data` is absent and whose meta carries no next
cursor is the normal end of feed — `process_page` returns `Ok([])` and the
cache untouched; a page with no `data` that nonetheless advertises a next
cursor trips the `assert_eq!` — a fatal panic, not a silent skip. -/
theorem c2_terminal_page_handling (env : BotEnv) (cache : UsernameCache) (p q : Page)
    (hp_data : p.data = none)
    (hp_meta : p.meta.bind ResultCountMeta.next_token = none)
    (hq_data : q.data = none)
    (hq_meta : ∃ tok, q.meta.bind ResultCountMeta.next_token = some tok) :
    process_page env cache p = (.ok [], cache) ∧
    ∃ m, (process_page env cache q).1 = .panicked m := by
  obtain ⟨tok, htok⟩ := hq_meta
  refine ⟨by simp [process_page, hp_data, hp_meta], ?_⟩
  exact ⟨"assertion failed: next_token expected to be None on terminal page",
    by simp [process_page, hq_data, htok]⟩

/-- Witness for C2: a dataless cursorless page yields `Ok([])`; a dataless
page with cursor `"tok"` panics. -/
theorem c2_terminal_page_handling_witness :
    process_page ⟨fun _ => .ok none⟩ [] ⟨none, none, none⟩ = (.ok [], []) ∧
    ∃ m, (process_page ⟨fun _ => .ok none⟩ [] ⟨none, none, some ⟨some "tok"⟩⟩).1
      = .panicked m :=
  c2_terminal_page_handling _ _ _ _ rfl rfl rfl ⟨"tok", rfl⟩

/-- Claim C7: the username cache. A cache hit returns the cached value with
the cache unchanged and zero network lookups; a cache miss issues exactly
one lookup, inserts the result, and the value used is the freshly inserted
one (readable back from the new cache). -/
theorem c7_username_cache (env : BotEnv) (cache : UsernameCache) (author_id : NumericId) :
    (∀ username, List.lookup author_id cache = some username →
        resolve_username env cache author_id = (.ok username, cache, 0)) ∧
    (List.lookup author_id cache = none →
      ∀ username, env.get_user author_id = .ok (some username) →
        resolve_username env cache author_id
          = (.ok username, (author_id, username) :: cache, 1) ∧
        List.lookup author_id ((author_id, username) :: cache) = some username) := by
  refine ⟨fun username h => by simp [resolve_username, h], fun hmiss username hnet => ?_⟩
  refine ⟨by simp [resolve_username, hmiss, hnet, List.lookup], by simp [List.lookup]⟩

/-- Witness for C7: a hit on a cached id issues no lookup; a miss issues one
and uses the fetched value. -/
theorem c7_username_cache_witness :
    resolve_username ⟨fun _ => .ok (some "net")⟩ [(7, "cached")] 7
      = (.ok "cached", [(7, "cached")], 0) ∧
    resolve_username ⟨fun _ => .ok (some "net")⟩ [] 7 = (.ok "net", [(7, "net")], 1) :=
  ⟨(c7_username_cache ⟨fun _ => .ok (some "net")⟩ [(7, "cached")] 7).1 "cached" rfl,
   ((c7_username_cache ⟨fun _ => .ok (some "net")⟩ [] 7).2 rfl "net" rfl).1⟩

/-- Claim C10 (implicit): `download::file` creates — and thereby truncates —
the destination before any network traffic. A failing `File::create` is
reported as a `File` error with no request issued and the filesystem
untouched; a successful create followed by a failing fetch is a `Remote`
error that leaves an empty file behind at the destination. -/
theorem c10_download_file_effects (env1 env2 : DownloadEnv) (initial1 initial2 : FsFile)
    (e1 e2 : String)
    (h1 : env1.create = .error e1)
    (h2c : env2.create = .ok ()) (h2f : env2.fetch = .error e2) :
    Download.file env1 initial1 = (.error (.File e1), false, initial1) ∧
    Download.file env2 initial2 = (.error (.Remote e2), true, .empty) := by
  exact ⟨by simp [Download.file, h1], by simp [Download.file, h2c, h2f]⟩

/-- Witness for C10: a concrete denied create, and a concrete reset fetch
over a pre-existing file. -/
theorem c10_download_file_effects_witness :
    Download.file ⟨.error "denied", .ok [], .ok ()⟩ .absent
      = (.error (.File "denied"), false, .absent) ∧
    Download.file ⟨.ok (), .error "conn reset", .ok ()⟩ (.content [1])
      = (.error (.Remote "conn reset"), true, .empty) :=
  c10_download_file_effects ⟨.error "denied", .ok [], .ok ()⟩
    ⟨.ok (), .error "conn reset", .ok ()⟩ .absent (.content [1]) "denied" "conn reset" rfl rfl rfl

/-- Claim C5: when the attachment loop of `process_page` succeeds, the
produced references are exactly the filterMap of `photo_ref_spec` over the
attached media keys — a key yields an `ImageRef` iff it resolves in the
side-table to a `Photo`, and the reference's internal filename is the last
path segment of the media url; moreover a key with no side-table entry is
silently skipped, the remaining keys still being processed, with no error. -/
theorem c5_media_key_resolution (includes_media : List (String × Media))
    (tweet_ref : TweetRef) :
    (∀ keys refs, process_tweet_media includes_media tweet_ref keys = .ok refs →
        refs = keys.filterMap (photo_ref_spec includes_media tweet_ref)) ∧
    (∀ key keys, List.lookup key includes_media = none →
        process_tweet_media includes_media tweet_ref (key :: keys)
          = process_tweet_media includes_media tweet_ref keys) := by
  refine ⟨?_, fun key keys h => process_tweet_media_cons_none _ _ _ _ h⟩
  intro keys
  induction keys with
  | nil =>
    intro refs h
    injection h with h
    simp [← h]
  | cons key rest ih =>
    intro refs h
    rcases hl : List.lookup key includes_media with _ | media
    · rw [process_tweet_media_cons_none _ _ _ _ hl] at h
      simp [photo_ref_spec, hl, ih refs h]
    · by_cases hk : media.kind = MediaType.photo
      · rcases hu : media.url with _ | url
        · simp [process_tweet_media, hl, hk, hu, ok_or_invariant] at h
        · rcases hps : url.path_segments with _ | segments
          · simp [process_tweet_media, hl, hk, hu, hps, ok_or_invariant] at h
          · rcases hgl : segments.getLast? with _ | filename
            · simp [process_tweet_media, hl, hk, hu, hps, hgl, ok_or_invariant] at h
            · rw [process_tweet_media_cons_photo includes_media tweet_ref key rest media
                url segments filename hl hk hu hps hgl] at h
              cases hrest : process_tweet_media includes_media tweet_ref rest with
              | ok rest_refs =>
                rw [hrest] at h
                injection h with h
                simp [← h, photo_ref_spec, hl, hk, hu, hps, hgl, ih rest_refs hrest]
              | err e => rw [hrest] at h; exact absurd h (by simp)
              | panicked m => rw [hrest] at h; exact absurd h (by simp)
      · rw [process_tweet_media_cons_not_photo _ _ _ _ _ hl hk] at h
        simp [photo_ref_spec, hl, hk, ih refs h]

/-- Witness for C5: a side-table with one photo and one video; the key list
holds an unresolved key, the photo key and the video key — the result is
the single photo reference named by the url's last path segment, and the
unresolved key is skipped without error. -/
theorem c5_media_key_resolution_witness :
    [ImageRef.mk ⟨"2020-01-01T00:00:00Z", "alice", 5⟩ "pic.jpg"
        ⟨"https://h/a/pic.jpg", some ["a", "pic.jpg"]⟩]
      = ["nope", "mk1", "mk2"].filterMap
          (photo_ref_spec
            (media_table
              [⟨"mk1", .photo, some ⟨"https://h/a/pic.jpg", some ["a", "pic.jpg"]⟩⟩,
               ⟨"mk2", .video, some ⟨"https://h/v.mp4", some ["v.mp4"]⟩⟩])
            ⟨"2020-01-01T00:00:00Z", "alice", 5⟩) ∧
    process_tweet_media
        (media_table
          [⟨"mk1", .photo, some ⟨"https://h/a/pic.jpg", some ["a", "pic.jpg"]⟩⟩,
           ⟨"mk2", .video, some ⟨"https://h/v.mp4", some ["v.mp4"]⟩⟩])
        ⟨"2020-01-01T00:00:00Z", "alice", 5⟩ ("nope" :: ["mk1", "mk2"])
      = process_tweet_media
          (media_table
            [⟨"mk1", .photo, some ⟨"https://h/a/pic.jpg", some ["a", "pic.jpg"]⟩⟩,
             ⟨"mk2", .video, some ⟨"https://h/v.mp4", some ["v.mp4"]⟩⟩])
          ⟨"2020-01-01T00:00:00Z", "alice", 5⟩ ["mk1", "mk2"] := by
  refine ⟨(c5_media_key_resolution _ _).1 ["nope", "mk1", "mk2"] _ (by decide), ?_⟩
  exact (c5_media_key_resolution _ _).2 "nope" ["mk1", "mk2"] (by decide)

/-- Claim C3: for a page carrying data, when any item is missing a field
the request shape guarantees (author id, created-at, the included-media
table or media list at page level, the media-keys list of present
attachments, a resolved photo's url, or the url's path segments),
`process_page` fails the whole page with a descriptive `TwitterApiInvariant`
error — returning no (partial) list of references at all. The user-lookup
environment is assumed healthy so the failure is attributable to the
missing field. -/
theorem c3_missing_field_fails_whole_page (env : BotEnv) (cache : UsernameCache)
    (page : Page) (tweets : List Tweet)
    (henv : ∀ id, ∃ u, env.get_user id = .ok (some u))
    (hdata : page.data = some tweets)
    (hbad : page.includes = none ∨
      (∃ inc, page.includes = some inc ∧ inc.media = none) ∨
      (∃ inc ms, page.includes = some inc ∧ inc.media = some ms ∧
        ∃ t ∈ tweets, tweet_missing_field (media_table ms) t)) :
    ∃ d, (process_page env cache page).1 = .err (.TwitterApiInvariant d) := by
  rcases hbad with hinc | ⟨inc, hinc, hmedia⟩ | ⟨inc, ms, hinc, hmedia, hbadt⟩
  · exact ⟨"includes in response", by simp [process_page, hdata, hinc, ok_or_invariant]⟩
  · exact ⟨"media in includes",
      by simp [process_page, hdata, hinc, hmedia, ok_or_invariant]⟩
  · obtain ⟨d, hd⟩ := process_tweets_missing_err env henv (media_table ms) cache tweets hbadt
    exact ⟨d, by simp only [process_page, hdata, hinc, hmedia, ok_or_invariant]; exact hd⟩

/-- Witness for C3: a page whose first item is fine and whose second item
lacks an author id fails as a whole with an invariant error. -/
theorem c3_missing_field_fails_whole_page_witness :
    ∃ d, (process_page ⟨fun _ => .ok (some "alice")⟩ []
      ⟨some [⟨1, some 7, some "2020-01-01T00:00:00Z", none⟩,
             ⟨2, none, some "2020-01-02T00:00:00Z", none⟩],
       some ⟨some []⟩, none⟩).1 = .err (.TwitterApiInvariant d) :=
  c3_missing_field_fails_whole_page ⟨fun _ => .ok (some "alice")⟩ []
    ⟨some [⟨1, some 7, some "2020-01-01T00:00:00Z", none⟩,
           ⟨2, none, some "2020-01-02T00:00:00Z", none⟩],
     some ⟨some []⟩, none⟩
    [⟨1, some 7, some "2020-01-01T00:00:00Z", none⟩,
     ⟨2, none, some "2020-01-02T00:00:00Z", none⟩]
    (fun _ => ⟨"alice", rfl⟩) rfl
    (.inr (.inr ⟨⟨some []⟩, [], rfl, rfl,
      ⟨2, none, some "2020-01-02T00:00:00Z", none⟩, by simp, .inl rfl⟩))

/-! ## Feed-walk lemmas -/

theorem feed_step_error_state (env : FeedEnv) (st st' : FeedState) (e : Error)
    (h : feed_step env st = some (.error e, st')) : st' = .errored := by
  cases st with
  | unintialised =>
    rcases hf : env.first with e' | p
    · simp [feed_step, hf] at h
      exact h.2.symm
    · simp [feed_step, hf] at h
  | errored => simp [feed_step] at h
  | page current =>
    rcases hn : env.next current with e' | op
    · simp [feed_step, hn] at h
      exact h.2.symm
    · rcases op with _ | p
      · simp [feed_step, hn] at h
      · simp [feed_step, hn] at h

theorem feed_step_ok_state (env : FeedEnv) (st st' : FeedState) (p : Page)
    (h : feed_step env st = some (.ok p, st')) : st' = .page p := by
  cases st with
  | unintialised =>
    rcases hf : env.first with e' | q
    · simp [feed_step, hf] at h
    · simp [feed_step, hf] at h
      rw [h.1] at h
      exact h.2.symm
  | errored => simp [feed_step] at h
  | page current =>
    rcases hn : env.next current with e' | op
    · simp [feed_step, hn] at h
    · rcases op with _ | q
      · simp [feed_step, hn] at h
      · simp [feed_step, hn] at h
        rw [h.1] at h
        exact h.2.symm

theorem fetch_liked_tweets_errored (env : FeedEnv) (fuel : Nat) :
    fetch_liked_tweets env fuel .errored = [] := by
  cases fuel <;> simp [fetch_liked_tweets, feed_step]

/-- An emitted error is the stream's last item. -/
theorem fetch_error_terminal (env : FeedEnv) :
    ∀ (fuel : Nat) (st : FeedState) (i : Nat) (e : Error),
      (fetch_liked_tweets env fuel st)[i]? = some (.error e) →
      (fetch_liked_tweets env fuel st).length = i + 1 := by
  intro fuel
  induction fuel with
  | zero =>
    intro st i e h
    simp [fetch_liked_tweets] at h
  | succ fuel ih =>
    intro st i e h
    rcases hstep : feed_step env st with _ | ⟨item, st'⟩
    · simp [fetch_liked_tweets, hstep] at h
    · simp only [fetch_liked_tweets, hstep] at h ⊢
      cases i with
      | zero =>
        simp only [List.getElem?_cons_zero, Option.some.injEq] at h
        subst h
        have hst' := feed_step_error_state env st st' e hstep
        subst hst'
        simp [fetch_liked_tweets_errored]
      | succ i =>
        simp only [List.getElem?_cons_succ] at h
        simp [ih st' i e h]

/-- The head of a walk resumed from a current page is what `next_page` of
that page returned. -/
theorem fetch_page_head (env : FeedEnv) (fuel : Nat) (p q : Page)
    (h : (fetch_liked_tweets env fuel (.page p))[0]? = some (.ok q)) :
    env.next p = .ok (some q) := by
  cases fuel with
  | zero => simp [fetch_liked_tweets] at h
  | succ fuel =>
    rcases hn : env.next p with e | op
    · simp [fetch_liked_tweets, feed_step, hn] at h
    · rcases op with _ | r
      · simp [fetch_liked_tweets, feed_step, hn] at h
      · simp [fetch_liked_tweets, feed_step, hn] at h
        subst h
        rfl

/-- The head of the walk is what the first fetch returned. -/
theorem fetch_first_head (env : FeedEnv) (fuel : Nat) (p : Page)
    (h : (fetch_liked_tweets env fuel .unintialised)[0]? = some (.ok p)) :
    env.first = .ok p := by
  cases fuel with
  | zero => simp [fetch_liked_tweets] at h
  | succ fuel =>
    rcases hf : env.first with e | r
    · simp [fetch_liked_tweets, feed_step, hf] at h
    · simp [fetch_liked_tweets, feed_step, hf] at h
      subst h
      rfl

/-- Each page in the stream after position `i` is produced by `next_page`
of the page at position `i`. -/
theorem fetch_sequential (env : FeedEnv) :
    ∀ (fuel : Nat) (st : FeedState) (i : Nat) (p q : Page),
      (fetch_liked_tweets env fuel st)[i]? = some (.ok p) →
      (fetch_liked_tweets env fuel st)[i + 1]? = some (.ok q) →
      env.next p = .ok (some q) := by
  intro fuel
  induction fuel with
  | zero =>
    intro st i p q h _
    simp [fetch_liked_tweets] at h
  | succ fuel ih =>
    intro st i p q h1 h2
    rcases hstep : feed_step env st with _ | ⟨item, st'⟩
    · simp [fetch_liked_tweets, hstep] at h1
    · simp only [fetch_liked_tweets, hstep] at h1 h2
      cases i with
      | zero =>
        simp only [List.getElem?_cons_zero, Option.some.injEq] at h1
        subst h1
        simp only [List.getElem?_cons_succ] at h2
        have hst' := feed_step_ok_state env st st' p hstep
        subst hst'
        exact fetch_page_head env fuel p q h2
      | succ i =>
        simp only [List.getElem?_cons_succ] at h1 h2
        exact ih st' i p q h1 h2

/-- A page whose `next_page` reports no further page ends the stream right
after it, with no error emitted. -/
theorem fetch_no_cursor_terminal (env : FeedEnv) :
    ∀ (fuel : Nat) (st : FeedState) (i : Nat) (p : Page),
      (fetch_liked_tweets env fuel st)[i]? = some (.ok p) →
      env.next p = .ok none →
      (fetch_liked_tweets env fuel st).length = i + 1 := by
  intro fuel
  induction fuel with
  | zero =>
    intro st i p h _
    simp [fetch_liked_tweets] at h
  | succ fuel ih =>
    intro st i p h hnone
    rcases hstep : feed_step env st with _ | ⟨item, st'⟩
    · simp [fetch_liked_tweets, hstep] at h
    · simp only [fetch_liked_tweets, hstep] at h ⊢
      cases i with
      | zero =>
        simp only [List.getElem?_cons_zero, Option.some.injEq] at h
        subst h
        have hst' := feed_step_ok_state env st st' p hstep
        subst hst'
        have hnil : fetch_liked_tweets env fuel (.page p) = [] := by
          cases fuel with
          | zero => simp [fetch_liked_tweets]
          | succ fuel => simp [fetch_liked_tweets, feed_step, hnone]
        simp [hnil]
      | succ i =>
        simp only [List.getElem?_cons_succ] at h
        simp [ih st' i p h hnone]

/-- Claim C8: the feed walk is strictly sequential and abort-on-error. The
stream's first page is exactly the first fetch's response; the page at
position `i + 1` is exactly what `next_page` of the already-observed page
at position `i` returned (so request `n + 1` is issued only from page `n`'s
response); a page whose response carries no next cursor ends the stream
right after it, with all earlier pages already emitted and no error; and an
emitted error is the last item of the stream — nothing further is issued. -/
theorem c8_feed_walk_sequential_abort (env : FeedEnv) (fuel i : Nat) :
    (∀ p, (fetch_liked_tweets env fuel .unintialised)[0]? = some (.ok p) →
        env.first = .ok p) ∧
    (∀ p q, (fetch_liked_tweets env fuel .unintialised)[i]? = some (.ok p) →
        (fetch_liked_tweets env fuel .unintialised)[i + 1]? = some (.ok q) →
        env.next p = .ok (some q)) ∧
    (∀ p, (fetch_liked_tweets env fuel .unintialised)[i]? = some (.ok p) →
        env.next p = .ok none →
        (fetch_liked_tweets env fuel .unintialised).length = i + 1) ∧
    (∀ e, (fetch_liked_tweets env fuel .unintialised)[i]? = some (.error e) →
        (fetch_liked_tweets env fuel .unintialised).length = i + 1) :=
  ⟨fun p h => fetch_first_head env fuel p h,
   fun p q h1 h2 => fetch_sequential env fuel .unintialised i p q h1 h2,
   fun p h hn => fetch_no_cursor_terminal env fuel .unintialised i p h hn,
   fun e h => fetch_error_terminal env fuel .unintialised i e h⟩

/-- Witness for C8: on the two-page sample feed the walk recovers the first
fetch, follows the cursor exactly once, and stops after the cursorless
page (two items total); on the erroring feed the walk ends at the error
(one item total). -/
theorem c8_feed_walk_sequential_abort_witness :
    sample_feed_env.first = .ok sample_page1 ∧
    sample_feed_env.next sample_page1 = .ok (some sample_page2) ∧
    (fetch_liked_tweets sample_feed_env 10 .unintialised).length = 1 + 1 ∧
    (fetch_liked_tweets sample_feed_env_err 10 .unintialised).length = 0 + 1 :=
  ⟨(c8_feed_walk_sequential_abort sample_feed_env 10 0).1 sample_page1 rfl,
   (c8_feed_walk_sequential_abort sample_feed_env 10 0).2.1 sample_page1 sample_page2 rfl rfl,
   (c8_feed_walk_sequential_abort sample_feed_env 10 1).2.2.1 sample_page2 rfl rfl,
   (c8_feed_walk_sequential_abort sample_feed_env_err 10 0).2.2.2
     (.TwitterClient "boom") rfl⟩

/-! ## Decimal rendering of ids: digit lemmas for the filename composite -/

theorem digitChar_isDigit : ∀ d : Nat, d < 10 → (Nat.digitChar d).isDigit = true := by
  decide

theorem digitChar_injOn : ∀ d1 : Nat, d1 < 10 → ∀ d2 : Nat, d2 < 10 →
    Nat.digitChar d1 = Nat.digitChar d2 → d1 = d2 := by
  decide

theorem toDigitsCore_eq_digits :
    ∀ (fuel n : Nat), n < fuel → 0 < n → ∀ ds : List Char,
      Nat.toDigitsCore 10 fuel n ds
        = ((Nat.digits 10 n).reverse.map Nat.digitChar) ++ ds := by
  intro fuel
  induction fuel with
  | zero => intro n hn; omega
  | succ fuel ih =>
    intro n hfuel hpos ds
    by_cases hq : n / 10 = 0
    · have hdig : Nat.digits 10 n = [n % 10] := by
        rw [Nat.digits_def' (by norm_num : (1 : Nat) < 10) hpos, hq, Nat.digits_zero]
      simp only [Nat.toDigitsCore, hq, if_pos]
      simp [hdig]
    · have hpos' : 0 < n / 10 := Nat.pos_of_ne_zero hq
      have hlt : n / 10 < fuel :=
        lt_of_lt_of_le (Nat.div_lt_self hpos (by norm_num)) (Nat.lt_succ_iff.mp hfuel)
      simp only [Nat.toDigitsCore, hq, if_neg]
      rw [ih (n / 10) hlt hpos' (Nat.digitChar (n % 10) :: ds),
        Nat.digits_def' (by norm_num : (1 : Nat) < 10) hpos]
      simp

theorem repr_data_eq (n : Nat) :
    (Nat.repr n).data
      = if n = 0 then ['0'] else (Nat.digits 10 n).reverse.map Nat.digitChar := by
  by_cases h : n = 0
  · subst h; rfl
  · have hpos : 0 < n := Nat.pos_of_ne_zero h
    rw [if_neg h]
    have hdata : (Nat.repr n).data = Nat.toDigitsCore 10 (n + 1) n [] := rfl
    rw [hdata, toDigitsCore_eq_digits (n + 1) n (Nat.lt_succ_self n) hpos []]
    simp

theorem repr_no_space (n : Nat) : ' ' ∉ (Nat.repr n).data := by
  rw [repr_data_eq]
  by_cases h : n = 0
  · subst h; decide
  · rw [if_neg h]
    intro hmem
    simp only [List.mem_map, List.mem_reverse] at hmem
    obtain ⟨d, hd, hchar⟩ := hmem
    have hlt : d < 10 := Nat.digits_lt_base (by norm_num) hd
    have hdig := digitChar_isDigit d hlt
    rw [hchar] at hdig
    exact absurd hdig (by decide)

theorem map_digitChar_inj :
    ∀ (l1 l2 : List Nat), (∀ d ∈ l1, d < 10) → (∀ d ∈ l2, d < 10) →
      l1.map Nat.digitChar = l2.map Nat.digitChar → l1 = l2 := by
  intro l1
  induction l1 with
  | nil =>
    intro l2 _ _ h
    cases l2 with
    | nil => rfl
    | cons b l2 => simp at h
  | cons a l1 ih =>
    intro l2 h1 h2 h
    cases l2 with
    | nil => simp at h
    | cons b l2 =>
      simp only [List.map_cons, List.cons.injEq] at h
      have hab := digitChar_injOn a (h1 a (by simp)) b (h2 b (by simp)) h.1
      rw [hab, ih l2 (fun d hd => h1 d (by simp [hd])) (fun d hd => h2 d (by simp [hd])) h.2]

theorem repr_single_zero_aux (m : Nat) (hm : m ≠ 0)
    (hd : ['0'] = (Nat.digits 10 m).reverse.map Nat.digitChar) : False := by
  rcases hrev : (Nat.digits 10 m).reverse with _ | ⟨d, rest⟩
  · rw [hrev] at hd
    simp at hd
  · rw [hrev] at hd
    simp only [List.map_cons, List.cons.injEq] at hd
    have hrest : rest = [] := by
      have := hd.2
      simpa using this.symm
    have hdmem : d ∈ Nat.digits 10 m := by
      have : d ∈ (Nat.digits 10 m).reverse := by simp [hrev]
      simpa using this
    have hdlt : d < 10 := Nat.digits_lt_base (by norm_num) hdmem
    have hd0 : d = 0 := digitChar_injOn d hdlt 0 (by norm_num) hd.1.symm
    have hdig : Nat.digits 10 m = [0] := by
      have := congrArg List.reverse hrev
      simpa [hrest, hd0] using this
    have := Nat.ofDigits_digits 10 m
    rw [hdig] at this
    simp [Nat.ofDigits] at this
    exact hm this.symm

theorem repr_inj (n m : Nat) (h : Nat.repr n = Nat.repr m) : n = m := by
  have hd : (Nat.repr n).data = (Nat.repr m).data := by rw [h]
  rw [repr_data_eq, repr_data_eq] at hd
  by_cases hn : n = 0 <;> by_cases hm : m = 0
  · rw [hn, hm]
  · rw [if_pos hn, if_neg hm] at hd
    exact absurd hd (fun hd => repr_single_zero_aux m hm hd)
  · rw [if_neg hn, if_pos hm] at hd
    exact absurd hd.symm (fun hd => repr_single_zero_aux n hn hd)
  · rw [if_neg hn, if_neg hm] at hd
    have hrev := map_digitChar_inj (Nat.digits 10 n).reverse (Nat.digits 10 m).reverse
      (fun d hd => Nat.digits_lt_base (by norm_num) (List.mem_reverse.mp hd))
      (fun d hd => Nat.digits_lt_base (by norm_num) (List.mem_reverse.mp hd)) hd
    have hdig : Nat.digits 10 n = Nat.digits 10 m := by
      have := congrArg List.reverse hrev
      simpa using this
    have h1 := Nat.ofDigits_digits 10 n
    have h2 := Nat.ofDigits_digits 10 m
    rw [← h1, ← h2, hdig]

/-! ## Space-separated composite parsing -/

theorem append_space_inj :
    ∀ (a b x y : List Char), ' ' ∉ a → ' ' ∉ b →
      a ++ ' ' :: x = b ++ ' ' :: y → a = b ∧ x = y := by
  intro a
  induction a with
  | nil =>
    intro b x y _ hb h
    cases b with
    | nil => simpa using h
    | cons c b =>
      simp only [List.nil_append, List.cons_append, List.cons.injEq] at h
      obtain ⟨hc, -⟩ := h
      subst hc
      exact absurd (List.mem_cons_self _ _) hb
  | cons c a ih =>
    intro b x y ha hb h
    cases b with
    | nil =>
      simp only [List.cons_append, List.nil_append, List.cons.injEq] at h
      obtain ⟨hc, -⟩ := h
      subst hc
      exact absurd (List.mem_cons_self _ _) ha
    | cons d b =>
      simp only [List.cons_append, List.cons.injEq] at h
      obtain ⟨hcd, h⟩ := h
      have hrec := ih b x y (fun hm => ha (List.mem_cons_of_mem _ hm))
        (fun hm => hb (List.mem_cons_of_mem _ hm)) h
      exact ⟨by rw [hcd, hrec.1], hrec.2⟩

theorem string_data_append (s t : String) : (s ++ t).data = s.data ++ t.data := rfl

theorem string_data_inj {s t : String} (h : s.data = t.data) : s = t := by
  cases s
  cases t
  exact congrArg String.mk (by simpa using h)

theorem filename_data (r : ImageRef) :
    (ImageRef.filename r).data
      = r.tweet.created_at.data ++ ' ' :: (r.tweet.username.data ++ ' ' ::
          ((Nat.repr r.tweet.id).data ++ ' ' :: r.internal_filename.data)) := by
  simp [ImageRef.filename, string_data_append]

/-- Claim C6 counterexample: the space-joined composite is not injective on
the embedded field domains — a username containing a space collides with a
shifted id and internal filename. These two references differ in username,
id and internal filename yet generate the same filename. -/
theorem c6_filename_collision :
    ImageRef.filename ⟨⟨"2020-01-01T00:00:00Z", "a 1", 2⟩, "f", ⟨"u", none⟩⟩
      = ImageRef.filename ⟨⟨"2020-01-01T00:00:00Z", "a", 1⟩, "2 f", ⟨"u", none⟩⟩ ∧
    ("a 1" : String) ≠ "a" ∧ (2 : NumericId) ≠ 1 ∧ ("f" : String) ≠ "2 f" :=
  ⟨rfl, by decide, by decide, by decide⟩

/-- Claim C6 (amended): the generated filename composite is injective
provided the ISO-8601 `created_at` rendering and the username contain no
space character (true of actual ISO-8601 timestamps and of the provider's
usernames; the id's decimal rendering is always space-free): two references
with equal filenames agree on createdAt, author, item id and internal
filename. -/
theorem c6_filename_injective (r1 r2 : ImageRef)
    (h1c : ' ' ∉ r1.tweet.created_at.data) (h2c : ' ' ∉ r2.tweet.created_at.data)
    (h1u : ' ' ∉ r1.tweet.username.data) (h2u : ' ' ∉ r2.tweet.username.data)
    (h : r1.filename = r2.filename) :
    r1.tweet.created_at = r2.tweet.created_at ∧
    r1.tweet.username = r2.tweet.username ∧
    r1.tweet.id = r2.tweet.id ∧
    r1.internal_filename = r2.internal_filename := by
  have hd : (r1.filename).data = (r2.filename).data := by rw [h]
  rw [filename_data, filename_data] at hd
  obtain ⟨hc, hd⟩ := append_space_inj _ _ _ _ h1c h2c hd
  obtain ⟨hu, hd⟩ := append_space_inj _ _ _ _ h1u h2u hd
  obtain ⟨hid, hf⟩ := append_space_inj _ _ _ _ (repr_no_space _) (repr_no_space _) hd
  exact ⟨string_data_inj hc, string_data_inj hu,
    repr_inj _ _ (string_data_inj hid), string_data_inj hf⟩

/-- Witness for the amended C6: two references equal in the four composite
fields (differing only in url) have equal filenames, and injectivity
recovers the four field equalities. -/
theorem c6_filename_injective_witness :
    ("2020-01-01T00:00:00Z" : String) = "2020-01-01T00:00:00Z" ∧
    ("alice" : String) = "alice" ∧
    (42 : NumericId) = 42 ∧
    ("pic.jpg" : String) = "pic.jpg" :=
  c6_filename_injective
    ⟨⟨"2020-01-01T00:00:00Z", "alice", 42⟩, "pic.jpg", ⟨"u1", none⟩⟩
    ⟨⟨"2020-01-01T00:00:00Z", "alice", 42⟩, "pic.jpg", ⟨"u2", some []⟩⟩
    (by decide) (by decide) (by decide) (by decide) rfl

end Magpie
